import Mathlib

/-!
# Verification of the budget app persistence layer

A shallow embedding of the persistence and data-integrity layer of the
python budget app (`src/database_setup.py`, `src/database_controller.py`),
together with proofs and refutations of the specified properties.

The SQLite store is modelled as lists of rows (one list per table, kept in
rowid/insertion order) plus the AUTOINCREMENT counters.  SQLite-specific
semantics that the claims depend on are modelled faithfully:

* `UNIQUE` indexes treat `NULL` as distinct from everything, including
  other `NULL`s, so a unique constraint over a nullable column never fires
  for rows whose column is `NULL`;
* `INSERT OR IGNORE` skips the insert only when a uniqueness conflict (in
  the above sense) exists;
* foreign keys are enforced (`PRAGMA foreign_keys = ON`), with the declared
  `ON DELETE CASCADE` / `ON DELETE SET NULL` actions, the default being
  rejection of the statement;
* `ORDER BY` returns some permutation of the filtered rows that is sorted
  by the given key; the relative order of rows with equal keys is not
  specified, which we model with a relation rather than a function.

Passwords are hashed with SHA-256 (`hashlib.sha256(password.encode(
"utf-8")).hexdigest()`), embedded here as an executable function on byte
lists with the digest rendered in lowercase hex.
-/

namespace BudgetApp

/-! ## SHA-256 (`DatabaseController._hash_password` delegates to `hashlib`) -/

namespace Sha256

/-- 32-bit truncation modulus. -/
def M : Nat := 4294967296

/-- Right rotation of a 32-bit word. -/
def rotr (n x : Nat) : Nat := ((x >>> n) ||| (x <<< (32 - n))) % M

/-- Big sigma-0. -/
def bsig0 (x : Nat) : Nat := ((rotr 2 x) ^^^ (rotr 13 x)) ^^^ (rotr 22 x)

/-- Big sigma-1. -/
def bsig1 (x : Nat) : Nat := ((rotr 6 x) ^^^ (rotr 11 x)) ^^^ (rotr 25 x)

/-- Small sigma-0. -/
def ssig0 (x : Nat) : Nat := ((rotr 7 x) ^^^ (rotr 18 x)) ^^^ (x >>> 3)

/-- Small sigma-1. -/
def ssig1 (x : Nat) : Nat := ((rotr 17 x) ^^^ (rotr 19 x)) ^^^ (x >>> 10)

/-- Choice function. -/
def ch (x y z : Nat) : Nat := (x &&& y) ^^^ ((x ^^^ 4294967295) &&& z)

/-- Majority function. -/
def maj (x y z : Nat) : Nat := ((x &&& y) ^^^ (x &&& z)) ^^^ (y &&& z)

/-- The 64 SHA-256 round constants. -/
def K : List Nat :=
  [1116352408, 1899447441, 3049323471, 3921009573,
   961987163, 1508970993, 2453635748, 2870763221,
   3624381080, 310598401, 607225278, 1426881987,
   1925078388, 2162078206, 2614888103, 3248222580,
   3835390401, 4022224774, 264347078, 604807628,
   770255983, 1249150122, 1555081692, 1996064986,
   2554220882, 2821834349, 2952996808, 3210313671,
   3336571891, 3584528711, 113926993, 338241895,
   666307205, 773529912, 1294757372, 1396182291,
   1695183700, 1986661051, 2177026350, 2456956037,
   2730485921, 2820302411, 3259730800, 3345764771,
   3516065817, 3600352804, 4094571909, 275423344,
   430227734, 506948616, 659060556, 883997877,
   958139571, 1322822218, 1537002063, 1747873779,
   1955562222, 2024104815, 2227730452, 2361852424,
   2428436474, 2756734187, 3204031479, 3329325298]

/-- The eight working registers of the compression function. -/
structure Regs where
  a : Nat
  b : Nat
  c : Nat
  d : Nat
  e : Nat
  f : Nat
  g : Nat
  h : Nat
deriving Repr, DecidableEq

/-- Initial hash value. -/
def H0 : Regs :=
  ⟨1779033703, 3144134277, 1013904242, 2773480762,
   1359893119, 2600822924, 528734635, 1541459225⟩

/-- One compression round with round constant `k` and schedule word `w`. -/
def round (s : Regs) (k w : Nat) : Regs :=
  let t1 := (s.h + bsig1 s.e + ch s.e s.f s.g + k + w) % M
  let t2 := (bsig0 s.a + maj s.a s.b s.c) % M
  ⟨(t1 + t2) % M, s.a, s.b, s.c, (s.d + t1) % M, s.e, s.f, s.g⟩

/-- Group a byte list into big-endian 32-bit words. -/
def bytesToWords : List Nat → List Nat
  | b0 :: b1 :: b2 :: b3 :: rest =>
      (((b0 <<< 24) ||| (b1 <<< 16)) ||| ((b2 <<< 8) ||| b3)) :: bytesToWords rest
  | _ => []

/-- Extend the 16 message words of a block to the 64 schedule words. -/
def extend (ws0 : Array Nat) : Array Nat :=
  (List.range 48).foldl
    (fun ws i =>
      ws.push ((ssig1 (ws.getD (i + 14) 0) + ws.getD (i + 9) 0 +
                ssig0 (ws.getD (i + 1) 0) + ws.getD i 0) % M))
    ws0

/-- Compress one 64-byte block into the running hash state. -/
def compress (H : Regs) (block : List Nat) : Regs :=
  let ws := extend (bytesToWords block).toArray
  let s := (K.zip ws.toList).foldl (fun s kw => round s kw.1 kw.2) H
  ⟨(H.a + s.a) % M, (H.b + s.b) % M, (H.c + s.c) % M, (H.d + s.d) % M,
   (H.e + s.e) % M, (H.f + s.f) % M, (H.g + s.g) % M, (H.h + s.h) % M⟩

/-- SHA-256 padding: a `0x80` byte, zeros, then the 64-bit big-endian bit
length, to a multiple of 64 bytes. -/
def pad (msg : List Nat) : List Nat :=
  let L := msg.length
  let zeros := (119 - (L % 64)) % 64
  msg ++ [128] ++ List.replicate zeros 0 ++
    (List.range 8).map (fun k => (8 * L >>> (8 * (7 - k))) &&& 255)

/-- The digest registers of a byte message. -/
def digest (msg : List Nat) : Regs :=
  let p := pad msg
  (List.range (p.length / 64)).foldl
    (fun H i => compress H ((p.drop (64 * i)).take 64)) H0

/-- Lowercase hex character for a nibble. -/
def hexChar (n : Nat) : Char :=
  if n < 10 then Char.ofNat (48 + n) else Char.ofNat (87 + n)

/-- Eight lowercase hex characters of a 32-bit word, big-endian. -/
def wordHex (w : Nat) : List Char :=
  (List.range 8).map (fun k => hexChar ((w >>> (4 * (7 - k))) &&& 15))

/-- The lowercase hex digest of a byte message, as `hexdigest()` returns. -/
def hexdigest (msg : List Nat) : String :=
  ⟨(match digest msg with
    | ⟨a, b, c, d, e, f, g, h⟩ => [a, b, c, d, e, f, g, h]).flatMap wordHex⟩

end Sha256

/-- UTF-8 encoding of one code point, as `str.encode("utf-8")` produces. -/
def charUtf8 (c : Char) : List Nat :=
  let n := c.toNat
  if n < 128 then [n]
  else if n < 2048 then [192 ||| (n >>> 6), 128 ||| (n &&& 63)]
  else if n < 65536 then
    [224 ||| (n >>> 12), 128 ||| ((n >>> 6) &&& 63), 128 ||| (n &&& 63)]
  else
    [240 ||| (n >>> 18), 128 ||| ((n >>> 12) &&& 63),
     128 ||| ((n >>> 6) &&& 63), 128 ||| (n &&& 63)]

/-- UTF-8 byte sequence of a string. -/
def utf8Bytes (s : String) : List Nat := s.data.flatMap charUtf8

/-- `DatabaseController._hash_password`: SHA-256 of the UTF-8 encoding of
the password, rendered as a lowercase hex digest string. -/
def hash_password (password : String) : String :=
  Sha256.hexdigest (utf8Bytes password)

/-- SQLite's default BINARY collation on `TEXT`: lexicographic comparison
of the UTF-8 byte sequences.  This is the order `ORDER BY` uses. -/
def textLt (a b : String) : Prop := utf8Bytes a < utf8Bytes b

/-- Non-strict BINARY collation order. -/
def textLe (a b : String) : Prop := utf8Bytes a ≤ utf8Bytes b

instance : DecidableRel textLt := fun a b =>
  inferInstanceAs (Decidable (utf8Bytes a < utf8Bytes b))

instance : DecidableRel textLe := fun a b =>
  inferInstanceAs (Decidable (utf8Bytes a ≤ utf8Bytes b))

example : hash_password "abc" =
    "ba7816bf8f01cfea414140de5dae2223b00361a396177a9cb410ff61f20015ad" := by
  decide

example : hash_password "" =
    "e3b0c44298fc1c149afbf4c8996fb92427ae41e4649b934ca495991b7852b855" := by
  decide

/-! ## Rows and store state

One list per table, kept in rowid (insertion) order, plus the
AUTOINCREMENT counters.  `REAL` amounts are modelled as rationals and
`TEXT` columns as strings; nullable columns are `Option`s. -/

/-- A row of the `users` table. -/
structure UserRow where
  id : Nat
  username : String
  password_hash : String
  created_at : String
deriving DecidableEq

/-- A row of the `categories` table. -/
structure CategoryRow where
  id : Nat
  name : String
  type : String
  icon : Option String
  user_id : Option Nat
deriving DecidableEq

/-- A row of the `subcategories` table. -/
structure SubcategoryRow where
  id : Nat
  name : String
  category_id : Nat
  user_id : Option Nat
deriving DecidableEq

/-- A row of the `recurring_transactions` table. -/
structure RecurringRow where
  id : Nat
  name : String
  amount : Rat
  frequency : String
  next_date : String
  category_id : Nat
  user_id : Nat
deriving DecidableEq

/-- A row of the `transactions` table. -/
structure TransactionRow where
  id : Nat
  amount : Rat
  date : String
  note : Option String
  payment_method : Option String
  user_id : Nat
  category_id : Nat
  subcategory_id : Option Nat
  recurring_id : Option Nat
deriving DecidableEq

/-- The store: the five tables of `DatabaseSetup.create_tables` and the
AUTOINCREMENT counter of each. -/
structure DB where
  users : List UserRow
  categories : List CategoryRow
  subcategories : List SubcategoryRow
  recurring_transactions : List RecurringRow
  transactions : List TransactionRow
  next_user_id : Nat
  next_category_id : Nat
  next_subcategory_id : Nat
  next_recurring_id : Nat
  next_transaction_id : Nat
deriving DecidableEq

/-- `DatabaseSetup.create_tables` on a fresh database file: the five empty
tables, with every AUTOINCREMENT sequence starting at 1. -/
def create_tables : DB := ⟨[], [], [], [], [], 1, 1, 1, 1, 1⟩

/-! ## `DatabaseSetup.seed_default_data` -/

/-- SQLite semantics of the `UNIQUE(name, user_id)` index on `categories`:
a new `(name, user_id)` conflicts with an existing row only when the names
are equal and both `user_id` values are equal and non-NULL; for unique
indexes SQLite treats each NULL as distinct from every value, including
other NULLs. -/
def categoryConflict (existing : CategoryRow) (name : String)
    (user_id : Option Nat) : Bool :=
  existing.name == name &&
    (match existing.user_id, user_id with
     | some a, some b => a == b
     | _, _ => false)

/-- `INSERT OR IGNORE INTO categories (name, type, icon) VALUES (?, ?, ?)`:
`user_id` is absent from the column list, hence NULL. -/
def insertOrIgnoreCategory (db : DB) (name type : String)
    (icon : Option String) : DB :=
  if db.categories.any (fun c => categoryConflict c name none) then db
  else { db with
    categories := db.categories ++ [⟨db.next_category_id, name, type, icon, none⟩],
    next_category_id := db.next_category_id + 1 }

/-- SQLite semantics of the `UNIQUE(name, category_id, user_id)` index on
`subcategories`, with the same NULL-distinctness as `categoryConflict`. -/
def subcategoryConflict (existing : SubcategoryRow) (name : String)
    (category_id : Nat) (user_id : Option Nat) : Bool :=
  existing.name == name && existing.category_id == category_id &&
    (match existing.user_id, user_id with
     | some a, some b => a == b
     | _, _ => false)

/-- `INSERT OR IGNORE INTO subcategories (name, category_id) VALUES (?, ?)`:
`user_id` is absent from the column list, hence NULL. -/
def insertOrIgnoreSubcategory (db : DB) (name : String) (category_id : Nat) : DB :=
  if db.subcategories.any (fun s => subcategoryConflict s name category_id none) then db
  else { db with
    subcategories := db.subcategories ++ [⟨db.next_subcategory_id, name, category_id, none⟩],
    next_subcategory_id := db.next_subcategory_id + 1 }

/-- The `default_categories` list of `DatabaseSetup.seed_default_data`. -/
def default_categories : List (String × String × String) :=
  [("Salary", "income", "💰"), ("Freelance", "income", "💼"),
   ("Investment", "income", "📈"), ("Gifts", "income", "🎁"),
   ("Refunds", "income", "🔙"), ("Rent/Mortgage", "expense", "🏠"),
   ("Groceries", "expense", "🛒"), ("Transport", "expense", "🚗"),
   ("Utilities", "expense", "💡"), ("Entertainment", "expense", "🎬"),
   ("Dining Out", "expense", "🍔"), ("Health", "expense", "❤️"),
   ("Insurance", "expense", "🛡️"), ("Shopping", "expense", "🛍️"),
   ("Education", "expense", "🎓"), ("Kids", "expense", "👶"),
   ("Pets", "expense", "🐾"), ("Travel", "expense", "✈️"),
   ("Savings", "expense", "🏦"), ("Donations", "expense", "🤝"),
   ("Other", "expense", "❓")]

/-- The `default_subcategories` names seeded under the first system
`Shopping` category. -/
def default_subcategory_names : List String :=
  ["Electronics", "Clothing", "Beauty & Self-care", "Home & Decor",
   "Tools & DIY", "Gifts"]

/-- `DatabaseSetup.seed_default_data`: insert-or-ignore the 21 default
categories, then look up the first system `Shopping` row (`SELECT id FROM
categories WHERE name = ... AND user_id IS NULL`, `fetchone` returning the
lowest rowid) and insert-or-ignore six subcategories under it. -/
def seed_default_data (db : DB) : DB :=
  let db1 := default_categories.foldl
    (fun d nti => insertOrIgnoreCategory d nti.1 nti.2.1 (some nti.2.2)) db
  match db1.categories.find?
      (fun c => decide (c.name = "Shopping" ∧ c.user_id = none)) with
  | some srow =>
      default_subcategory_names.foldl
        (fun d n => insertOrIgnoreSubcategory d n srow.id) db1
  | none => db1

/-! ## `DatabaseController` operations -/

/-- `DatabaseController.add_user`.  `created_at` (`datetime.now()`) is
passed as an explicit clock argument `now`.  With usernames `NOT NULL`, the
INSERT raises `sqlite3.IntegrityError` exactly when the username already
exists; that branch is caught and returns `None` with the store unchanged. -/
def add_user (db : DB) (now username password : String) : Option Nat × DB :=
  let password_hash := hash_password password
  if db.users.any (fun u => decide (u.username = username)) then (none, db)
  else (some db.next_user_id,
    { db with
      users := db.users ++ [⟨db.next_user_id, username, password_hash, now⟩],
      next_user_id := db.next_user_id + 1 })

/-- `DatabaseController.verify_user`: recompute the hash and return the
first row matching `username = ? AND password_hash = ?`, or `None`. -/
def verify_user (db : DB) (username password : String) : Option UserRow :=
  let password_hash := hash_password password
  db.users.find?
    (fun u => decide (u.username = username ∧ u.password_hash = password_hash))

/-- The `(id, name, icon)` projection returned by `get_categories`. -/
structure CatView where
  id : Nat
  name : String
  icon : Option String
deriving DecidableEq

/-- Project a category row to the selected columns. -/
def catView (c : CategoryRow) : CatView := ⟨c.id, c.name, c.icon⟩

/-- The `ORDER BY name` key, ascending in BINARY collation. -/
def nameLe (a b : CatView) : Prop := textLe a.name b.name

instance : DecidableRel nameLe := fun a b =>
  inferInstanceAs (Decidable (textLe a.name b.name))

instance : IsTotal CatView nameLe :=
  ⟨fun a b => le_total (utf8Bytes a.name) (utf8Bytes b.name)⟩

instance : IsTrans CatView nameLe :=
  ⟨fun _ _ _ h1 h2 => le_trans (α := List Nat) h1 h2⟩

/-- `DatabaseController.get_categories`: rows with
`type = ? AND (user_id = ? OR user_id IS NULL)`, ordered by name ascending,
projected to `(id, name, icon)`.  The `fault` flag models the
`sqlite3.Error` handler, which returns the same empty list `[]` that an
empty result produces. -/
def get_categories (fault : Bool) (db : DB) (user_id : Nat)
    (category_type : String) : List CatView :=
  if fault then []
  else
    List.insertionSort nameLe
      ((db.categories.filter
          (fun c => decide (c.type = category_type ∧
            (c.user_id = some user_id ∨ c.user_id = none)))).map catView)

/-- `DatabaseController.add_transaction`.  With `PRAGMA foreign_keys = ON`
the INSERT raises `sqlite3.IntegrityError` (caught, returning `None` with
the store unchanged) exactly when a referenced row is missing; the function
performs no validation of `amount` and no check that the subcategory
belongs to `category_id`.  `recurring_id` is absent from the INSERT column
list, hence NULL. -/
def add_transaction (db : DB) (user_id category_id : Nat) (amount : Rat)
    (date : String) (note payment_method : Option String)
    (subcategory_id : Option Nat) : Option Nat × DB :=
  let fkOk :=
    db.users.any (fun u => decide (u.id = user_id)) &&
    db.categories.any (fun c => decide (c.id = category_id)) &&
    (match subcategory_id with
     | none => true
     | some sid => db.subcategories.any (fun s => decide (s.id = sid)))
  if fkOk then
    (some db.next_transaction_id,
     { db with
       transactions := db.transactions ++
         [⟨db.next_transaction_id, amount, date, note, payment_method,
           user_id, category_id, subcategory_id, none⟩],
       next_transaction_id := db.next_transaction_id + 1 })
  else (none, db)

/-! ## `DatabaseController.export_transactions_to_excel`

Only the row set of the SQL query is core; handing it to pandas/openpyxl
is external formatting.  `ORDER BY t.date DESC` fixes the date order but
says nothing about rows with equal dates, so the query's semantics is a
relation between the store and the produced row list. -/

/-- A row of the export query:
`t.date, c.name, sc.name, t.amount, t.payment_method, t.note, c.type`. -/
structure ExportRow where
  date : String
  category : String
  subcategory : Option String
  amount : Rat
  payment_method : Option String
  note : Option String
  type : String
deriving DecidableEq

/-- `LEFT JOIN subcategories sc ON t.subcategory_id = sc.id`: when
`subcategory_id` is NULL or matches no row, a single row with a NULL
subcategory name is produced; otherwise one row per matching subcategory. -/
def leftJoinSub (db : DB) (t : TransactionRow) : List (Option String) :=
  match t.subcategory_id with
  | none => [none]
  | some sid =>
    match db.subcategories.filter (fun s => decide (s.id = sid)) with
    | [] => [none]
    | ms => ms.map (fun s => some s.name)

/-- The multiset of rows of the export query before `ORDER BY`: the user's
transactions INNER JOINed to `categories` and LEFT JOINed to
`subcategories`. -/
def export_rows_unordered (db : DB) (user_id : Nat) : List ExportRow :=
  (db.transactions.filter (fun t => decide (t.user_id = user_id))).flatMap
    (fun t =>
      (db.categories.filter (fun c => decide (c.id = t.category_id))).flatMap
        (fun c =>
          (leftJoinSub db t).map (fun sub =>
            ⟨t.date, c.name, sub, t.amount, t.payment_method, t.note, c.type⟩)))

/-- The `ORDER BY t.date DESC` key: dates non-increasing in BINARY
collation. -/
def dateDesc (a b : ExportRow) : Prop := textLe b.date a.date

instance : DecidableRel dateDesc := fun a b =>
  inferInstanceAs (Decidable (textLe b.date a.date))

instance : IsTotal ExportRow dateDesc :=
  ⟨fun a b => le_total (utf8Bytes b.date) (utf8Bytes a.date)⟩

instance : IsTrans ExportRow dateDesc :=
  ⟨fun _ _ _ h1 h2 => le_trans (α := List Nat) h2 h1⟩

/-- Semantics of the export query of
`DatabaseController.export_transactions_to_excel`: a produced row sequence
is any permutation of the query rows that is sorted by date descending.
The query fixes no order among rows with equal dates. -/
def export_transactions_valid (db : DB) (user_id : Nat)
    (rows : List ExportRow) : Prop :=
  rows.Perm (export_rows_unordered db user_id) ∧ rows.Pairwise dateDesc

/-- The date-descending, primary-key-ascending order on transactions.
Stated from the spec's words ("ordered by `date` descending ... ties broken
by ... primary key ascending") for comparison with the code's `ORDER BY`,
which has no tie-break key. -/
def specTieOrder (t1 t2 : TransactionRow) : Prop :=
  textLt t2.date t1.date ∨ (t2.date = t1.date ∧ t1.id ≤ t2.id)

instance : DecidableRel specTieOrder := fun t1 t2 =>
  inferInstanceAs
    (Decidable (textLt t2.date t1.date ∨ (t2.date = t1.date ∧ t1.id ≤ t2.id)))

/-- The single row the spec expects for a transaction: its category name
and type and optional subcategory name looked up by id (with `""` for a
dangling category reference, which the foreign key rules out). -/
def row_of (db : DB) (t : TransactionRow) : ExportRow :=
  ⟨t.date,
   ((db.categories.find? (fun c => decide (c.id = t.category_id))).map
      (fun c => c.name)).getD "",
   t.subcategory_id.bind (fun sid =>
     (db.subcategories.find? (fun s => decide (s.id = sid))).map (fun s => s.name)),
   t.amount, t.payment_method, t.note,
   ((db.categories.find? (fun c => decide (c.id = t.category_id))).map
      (fun c => c.type)).getD ""⟩

/-- The fully deterministic row list the spec claims `projectLedger`
returns: the user's transactions sorted by date descending with ties
broken by primary key ascending, each projected through the join.  Stated
from the spec's words, to be compared with `export_transactions_valid`. -/
def spec_ledger_rows (db : DB) (user_id : Nat) : List ExportRow :=
  (List.insertionSort specTieOrder
    (db.transactions.filter (fun t => decide (t.user_id = user_id)))).map
    (row_of db)

/-! ## Delete operations induced by the schema

The repository has no delete methods; the cascade behaviour claimed by the
spec lives entirely in the FOREIGN KEY actions declared in
`DatabaseSetup.create_tables` (with `PRAGMA foreign_keys = ON`).  The
following model a single `DELETE` statement under SQLite semantics: the
declared `ON DELETE CASCADE` / `ON DELETE SET NULL` actions run, and the
statement is rejected (leaving the store unchanged) when a reference
without an action would dangle at the end of the statement. -/

/-- `DELETE FROM recurring_transactions WHERE id = ?`:
`transactions.recurring_id` has `ON DELETE SET NULL`, and nothing else
references `recurring_transactions`, so the delete always succeeds,
removing the rule and nullifying `recurring_id` where it matched. -/
def delete_recurring (db : DB) (rid : Nat) : DB :=
  { db with
    recurring_transactions :=
      db.recurring_transactions.filter (fun r => decide (r.id ≠ rid)),
    transactions := db.transactions.map (fun t =>
      if t.recurring_id = some rid then { t with recurring_id := none } else t) }

/-- `DELETE FROM categories WHERE id = ?`: `subcategories.category_id` has
`ON DELETE CASCADE`; `recurring_transactions.category_id`,
`transactions.category_id` and `transactions.subcategory_id` have no
action, so any remaining reference to the deleted category or its cascaded
subcategories rejects the statement. -/
def delete_category (db : DB) (cid : Nat) : Option DB :=
  let deadSubs := db.subcategories.filter (fun s => decide (s.category_id = cid))
  let violation :=
    db.recurring_transactions.any (fun r => decide (r.category_id = cid)) ||
    db.transactions.any (fun t =>
      decide (t.category_id = cid) ||
      (match t.subcategory_id with
       | some sid => deadSubs.any (fun s => decide (s.id = sid))
       | none => false))
  if violation then none
  else some { db with
    categories := db.categories.filter (fun c => decide (c.id ≠ cid)),
    subcategories := db.subcategories.filter (fun s => decide (s.category_id ≠ cid)) }

/-- `DELETE FROM users WHERE id = ?`: `categories`, `subcategories`,
`recurring_transactions` and `transactions` all cascade on their `user_id`
foreign keys; the cascade on a category further cascades its
subcategories; cascaded recurring rules nullify `recurring_id` in
surviving transactions; and a surviving reference (another user's row
pointing at a cascaded category or subcategory, whose foreign keys have no
action) rejects the statement. -/
def delete_user (db : DB) (uid : Nat) : Option DB :=
  let deadCats := db.categories.filter (fun c => decide (c.user_id = some uid))
  let subDead := fun (s : SubcategoryRow) =>
    s.user_id = some uid ∨ ∃ c ∈ deadCats, c.id = s.category_id
  let deadRecs := db.recurring_transactions.filter (fun r => decide (r.user_id = uid))
  let liveTrans := db.transactions.filter (fun t => decide (t.user_id ≠ uid))
  let liveRecs := db.recurring_transactions.filter (fun r => decide (r.user_id ≠ uid))
  let violation :=
    liveRecs.any (fun r => deadCats.any (fun c => decide (c.id = r.category_id))) ||
    liveTrans.any (fun t =>
      deadCats.any (fun c => decide (c.id = t.category_id)) ||
      (match t.subcategory_id with
       | some sid => (db.subcategories.filter (fun s => decide (subDead s))).any
           (fun s => decide (s.id = sid))
       | none => false))
  if violation then none
  else some { db with
    users := db.users.filter (fun u => decide (u.id ≠ uid)),
    categories := db.categories.filter (fun c => decide (c.user_id ≠ some uid)),
    subcategories := db.subcategories.filter (fun s => decide (¬ subDead s)),
    recurring_transactions := liveRecs,
    transactions := liveTrans.map (fun t =>
      if (match t.recurring_id with
          | some rid => deadRecs.any (fun r => decide (r.id = rid))
          | none => false)
      then { t with recurring_id := none } else t) }

/-! ## Store well-formedness facts used as hypotheses

These are consequences of the schema (`PRIMARY KEY` uniqueness and the
`transactions.category_id` foreign key) that the theorems take as
hypotheses about the store they run against. -/

/-- Primary keys of `categories` are distinct. -/
def catIdsNodup (db : DB) : Prop := (db.categories.map (fun c => c.id)).Nodup

/-- Primary keys of `subcategories` are distinct. -/
def subIdsNodup (db : DB) : Prop := (db.subcategories.map (fun s => s.id)).Nodup

/-- Every transaction's `category_id` references a live category (the
foreign key, under `PRAGMA foreign_keys = ON`). -/
def transCatLive (db : DB) : Prop :=
  ∀ t ∈ db.transactions, ∃ c ∈ db.categories, c.id = t.category_id

instance (db : DB) : Decidable (catIdsNodup db) :=
  inferInstanceAs (Decidable ((db.categories.map (fun c : CategoryRow => c.id)).Nodup))

instance (db : DB) : Decidable (subIdsNodup db) :=
  inferInstanceAs (Decidable ((db.subcategories.map (fun s : SubcategoryRow => s.id)).Nodup))

instance (db : DB) : Decidable (transCatLive db) :=
  inferInstanceAs
    (Decidable (∀ t ∈ db.transactions, ∃ c ∈ db.categories, c.id = t.category_id))

/-! ## Helper lemmas -/

/-- `find?` skips a prefix in which nothing matches. -/
lemma find?_append_left_nil {α : Type} (p : α → Bool) {l1 : List α}
    (l2 : List α) (h : ∀ x ∈ l1, p x = false) :
    (l1 ++ l2).find? p = l2.find? p := by
  induction l1 with
  | nil => rfl
  | cons a tl ih =>
    rw [List.cons_append, List.find?_cons_of_neg _ (by simp [h a (List.mem_cons_self a tl)])]
    exact ih (fun x hx => h x (List.mem_cons_of_mem a hx))

/-- `find?` is the head of `filter`. -/
lemma find?_eq_head?_filter {α : Type} (p : α → Bool) :
    ∀ l : List α, l.find? p = (l.filter p).head?
  | [] => rfl
  | a :: tl => by
    by_cases h : p a = true
    · rw [List.find?_cons_of_pos _ h, List.filter_cons, if_pos h, List.head?_cons]
    · rw [List.find?_cons_of_neg _ h, List.filter_cons, if_neg h,
        find?_eq_head?_filter p tl]

/-- When the keys of a list are distinct, filtering it by the key of one of
its members yields exactly that member. -/
lemma filter_key_singleton {α : Type} (f : α → Nat) (k : Nat) :
    ∀ (l : List α), (l.map f).Nodup → ∀ c ∈ l, f c = k →
      l.filter (fun x => decide (f x = k)) = [c] := by
  intro l
  induction l with
  | nil => intro _ c hc; exact absurd hc (List.not_mem_nil c)
  | cons a tl ih =>
    intro hnd c hc hck
    rw [List.map_cons, List.nodup_cons] at hnd
    rcases List.mem_cons.mp hc with rfl | hctl
    · rw [List.filter_cons, if_pos (by simp [hck])]
      have htl : tl.filter (fun x => decide (f x = k)) = [] := by
        rw [List.filter_eq_nil_iff]
        intro x hx
        simp only [decide_eq_true_eq]
        intro hxk
        exact hnd.1 (hck ▸ hxk ▸ List.mem_map_of_mem f hx)
      rw [htl]
    · have hak : ¬(f a = k) := by
        intro hfa
        exact hnd.1 (hfa ▸ hck ▸ List.mem_map_of_mem f hctl)
      rw [List.filter_cons, if_neg (by simp [hak])]
      exact ih hnd.2 c hctl hck

/-- When the keys of a list are distinct, `find?` by the key of a member
returns that member. -/
lemma find?_key_eq {α : Type} (f : α → Nat) (k : Nat) (l : List α)
    (hnd : (l.map f).Nodup) (c : α) (hc : c ∈ l) (hck : f c = k) :
    l.find? (fun x => decide (f x = k)) = some c := by
  rw [find?_eq_head?_filter, filter_key_singleton f k l hnd c hc hck, List.head?_cons]

/-- Case analysis on `add_user`: either the username exists and the call
returns `None` with the store unchanged (the `sqlite3.IntegrityError`
branch), or it appends the hashed row and returns the fresh id. -/
lemma add_user_spec (db : DB) (now username password : String) :
    (db.users.any (fun u => decide (u.username = username)) = true ∧
      add_user db now username password = (none, db)) ∨
    (db.users.any (fun u => decide (u.username = username)) = false ∧
      add_user db now username password
        = (some db.next_user_id,
           { db with
             users := db.users ++
               [⟨db.next_user_id, username, hash_password password, now⟩],
             next_user_id := db.next_user_id + 1 })) := by
  by_cases hb : db.users.any (fun u => decide (u.username = username)) = true
  · exact Or.inl ⟨hb, by simp only [add_user]; rw [if_pos hb]⟩
  · refine Or.inr ⟨by rwa [Bool.not_eq_true] at hb, ?_⟩
    simp only [add_user]
    rw [if_neg hb]

/-- `flatMap` of a pointwise singleton function is a `map`. -/
lemma flatMap_eq_map_of_singleton {α β : Type} {f : α → List β} {g : α → β} :
    ∀ {l : List α}, (∀ a ∈ l, f a = [g a]) → l.flatMap f = l.map g := by
  intro l
  induction l with
  | nil => intro _; rfl
  | cons a tl ih =>
    intro h
    rw [List.flatMap_cons, h a (List.mem_cons_self a tl), List.map_cons,
      ih (fun x hx => h x (List.mem_cons_of_mem a hx)), List.singleton_append]

/-! ## Claim C1

`recordTransaction` with `amount ≤ 0`: the spec claims the call fails with
`InvalidAmount` before any storage write.  `DatabaseController.add_transaction`
has no amount validation (and the schema has no `CHECK (amount > 0)`), so
the call succeeds whenever the foreign keys resolve. -/

/-- A store with one user (id 1) and one system expense category (id 1). -/
def dbC1 : DB :=
  ⟨[⟨1, "u", "h", "t0"⟩], [⟨1, "Groceries", "expense", none, none⟩],
   [], [], [], 2, 2, 1, 1, 1⟩

/-- C1, counterexample to the claim as stated: at amount `-5 ≤ 0` against
`dbC1`, `add_transaction` returns the fresh identifier 1 and appends a row,
instead of failing with `InvalidAmount` and leaving the store unchanged. -/
theorem C1_counterexample :
    (add_transaction dbC1 1 1 (-5) "2025-01-01" none none none).1 = some 1 ∧
    (add_transaction dbC1 1 1 (-5) "2025-01-01" none none none).2.transactions.length
      = dbC1.transactions.length + 1 := by
  decide

/-- C1, amended: `recordTransaction` performs no amount validation; a call
with `amount ≤ 0` whose foreign keys resolve succeeds, appends the row with
that amount, and returns the new identifier. -/
theorem C1_no_amount_validation (db : DB) (uid cid : Nat) (amount : Rat)
    (date : String) (note pm : Option String)
    (_hamt : amount ≤ 0)
    (hu : ∃ u ∈ db.users, u.id = uid)
    (hc : ∃ c ∈ db.categories, c.id = cid) :
    (add_transaction db uid cid amount date note pm none).1
      = some db.next_transaction_id ∧
    (add_transaction db uid cid amount date note pm none).2.transactions
      = db.transactions ++
        [⟨db.next_transaction_id, amount, date, note, pm, uid, cid, none, none⟩] := by
  have h1 : db.users.any (fun u => decide (u.id = uid)) = true := by
    rw [List.any_eq_true]
    obtain ⟨u, hu1, hu2⟩ := hu
    exact ⟨u, hu1, by simp [hu2]⟩
  have h2 : db.categories.any (fun c => decide (c.id = cid)) = true := by
    rw [List.any_eq_true]
    obtain ⟨c, hc1, hc2⟩ := hc
    exact ⟨c, hc1, by simp [hc2]⟩
  simp [add_transaction, h1, h2]

/-- C1 witness: the amended theorem applied to `dbC1` at amount `-5`. -/
theorem C1_witness :
    (add_transaction dbC1 1 1 (-5) "2025-01-01" none none none).1
      = some dbC1.next_transaction_id ∧
    (add_transaction dbC1 1 1 (-5) "2025-01-01" none none none).2.transactions
      = dbC1.transactions ++
        [⟨dbC1.next_transaction_id, -5, "2025-01-01", none, none, 1, 1, none, none⟩] :=
  C1_no_amount_validation dbC1 1 1 (-5) "2025-01-01" none none
    (by decide) (by decide) (by decide)

/-! ## Claim C2

`recordTransaction` with a `subcategoryId` of a different category: the
spec claims the call fails with `SubcategoryMismatch`.  Neither
`add_transaction` nor the schema checks that the subcategory belongs to
`category_id`; the foreign key only requires the subcategory to exist. -/

/-- A store where subcategory 1 belongs to category 2, not category 1. -/
def dbC2 : DB :=
  ⟨[⟨1, "u", "h", "t0"⟩],
   [⟨1, "A", "expense", none, none⟩, ⟨2, "B", "expense", none, none⟩],
   [⟨1, "S", 2, none⟩], [], [], 2, 3, 2, 1, 1⟩

/-- C2, counterexample to the claim as stated: recording against category 1
with subcategory 1 — which belongs to category 2 — succeeds and appends a
row, instead of failing with `SubcategoryMismatch`. -/
theorem C2_counterexample :
    (∃ s ∈ dbC2.subcategories, s.id = 1 ∧ s.category_id ≠ 1) ∧
    (add_transaction dbC2 1 1 10 "2025-01-01" none none (some 1)).1 = some 1 ∧
    (add_transaction dbC2 1 1 10 "2025-01-01" none none (some 1)).2.transactions.length
      = dbC2.transactions.length + 1 := by
  decide

/-- C2, amended: `recordTransaction` does not check that the subcategory
belongs to `categoryId`; if the referenced user, category and subcategory
rows exist, the call succeeds and appends the row even when the
subcategory belongs to a different category. -/
theorem C2_no_subcategory_check (db : DB) (uid cid sid : Nat) (amount : Rat)
    (date : String) (note pm : Option String)
    (hu : ∃ u ∈ db.users, u.id = uid)
    (hc : ∃ c ∈ db.categories, c.id = cid)
    (hs : ∃ s ∈ db.subcategories, s.id = sid)
    (_hmismatch : ∀ s ∈ db.subcategories, s.id = sid → s.category_id ≠ cid) :
    (add_transaction db uid cid amount date note pm (some sid)).1
      = some db.next_transaction_id ∧
    (add_transaction db uid cid amount date note pm (some sid)).2.transactions
      = db.transactions ++
        [⟨db.next_transaction_id, amount, date, note, pm, uid, cid, some sid, none⟩] := by
  have h1 : db.users.any (fun u => decide (u.id = uid)) = true := by
    rw [List.any_eq_true]
    obtain ⟨u, hu1, hu2⟩ := hu
    exact ⟨u, hu1, by simp [hu2]⟩
  have h2 : db.categories.any (fun c => decide (c.id = cid)) = true := by
    rw [List.any_eq_true]
    obtain ⟨c, hc1, hc2⟩ := hc
    exact ⟨c, hc1, by simp [hc2]⟩
  have h3 : db.subcategories.any (fun s => decide (s.id = sid)) = true := by
    rw [List.any_eq_true]
    obtain ⟨s, hs1, hs2⟩ := hs
    exact ⟨s, hs1, by simp [hs2]⟩
  simp [add_transaction, h1, h2, h3]

/-- C2 witness: the amended theorem applied to `dbC2`. -/
theorem C2_witness :
    (add_transaction dbC2 1 1 10 "2025-01-01" none none (some 1)).1
      = some dbC2.next_transaction_id ∧
    (add_transaction dbC2 1 1 10 "2025-01-01" none none (some 1)).2.transactions
      = dbC2.transactions ++
        [⟨dbC2.next_transaction_id, 10, "2025-01-01", none, none, 1, 1, some 1, none⟩] :=
  C2_no_subcategory_check dbC2 1 1 1 10 "2025-01-01" none none
    (by decide) (by decide) (by decide) (by decide)

/-! ## Claim C3

`seedDefaults` idempotence.  The code uses `INSERT OR IGNORE` against
`UNIQUE(name, user_id)`, but the seeded rows have `user_id` NULL and SQLite
unique indexes treat NULLs as distinct, so the constraint never fires and a
second run re-inserts every default row: the claim states the intended
behaviour and the code fails it. -/

set_option maxRecDepth 8000 in
/-- C3, the code evaluated at the failing input: one seeding of a fresh
store leaves exactly one system "Groceries" expense category, but seeding
twice leaves two (and 42 categories in total), so `seed_default_data` is
not idempotent. -/
theorem C3_seed_twice_duplicates :
    ((seed_default_data create_tables).categories.filter
        (fun c => decide (c.name = "Groceries" ∧ c.type = "expense" ∧
          c.user_id = none))).length = 1 ∧
    ((seed_default_data (seed_default_data create_tables)).categories.filter
        (fun c => decide (c.name = "Groceries" ∧ c.type = "expense" ∧
          c.user_id = none))).length = 2 ∧
    (seed_default_data (seed_default_data create_tables)).categories.length = 42 := by
  decide

/-- The inner join lists of the export query collapse to the single
expected row when the referenced category exists and primary keys are
unique. -/
lemma export_inner_singleton (db : DB) (t : TransactionRow)
    (hcatN : catIdsNodup db) (hsubN : subIdsNodup db)
    (hc : ∃ c ∈ db.categories, c.id = t.category_id) :
    (db.categories.filter (fun c => decide (c.id = t.category_id))).flatMap
      (fun c => (leftJoinSub db t).map (fun sub =>
        (⟨t.date, c.name, sub, t.amount, t.payment_method, t.note, c.type⟩
          : ExportRow)))
      = [row_of db t] := by
  unfold catIdsNodup at hcatN
  unfold subIdsNodup at hsubN
  obtain ⟨c0, hc0, hcid⟩ := hc
  have hfc : db.categories.filter (fun c => decide (c.id = t.category_id)) = [c0] :=
    filter_key_singleton (fun c => c.id) t.category_id db.categories hcatN c0 hc0 hcid
  have hfind : db.categories.find? (fun c => decide (c.id = t.category_id))
      = some c0 :=
    find?_key_eq (fun c => c.id) t.category_id db.categories hcatN c0 hc0 hcid
  have hsub : leftJoinSub db t
      = [t.subcategory_id.bind (fun sid =>
          (db.subcategories.find? (fun s => decide (s.id = sid))).map
            (fun s => s.name))] := by
    unfold leftJoinSub
    cases hts : t.subcategory_id with
    | none => rfl
    | some sid =>
      dsimp only
      cases hfs : db.subcategories.filter (fun s => decide (s.id = sid)) with
      | nil =>
        have hfn : db.subcategories.find? (fun s => decide (s.id = sid)) = none := by
          rw [find?_eq_head?_filter, hfs]
          rfl
        dsimp only [Option.bind]
        rw [hfn]
        rfl
      | cons s0 rest =>
        have hs0 : s0 ∈ db.subcategories ∧ decide (s0.id = sid) = true :=
          List.mem_filter.mp (by rw [hfs]; exact List.mem_cons_self s0 rest)
        have hseq : db.subcategories.filter (fun s => decide (s.id = sid)) = [s0] :=
          filter_key_singleton (fun s => s.id) sid db.subcategories hsubN s0 hs0.1
            (of_decide_eq_true hs0.2)
        have hfindS : db.subcategories.find? (fun s => decide (s.id = sid))
            = some s0 := by
          rw [find?_eq_head?_filter, hseq]
          rfl
        rw [hfs] at hseq
        have hrest : rest = [] := ((List.cons.injEq s0 rest s0 []).mp hseq).2
        subst hrest
        dsimp only [Option.bind]
        rw [hfindS]
        rfl
  rw [hfc, hsub]
  simp [row_of, hfind]

/-- Under the `transactions.category_id` foreign key and primary-key
uniqueness, the export query produces exactly one row per transaction of
the user, in table order. -/
lemma export_rows_eq_map (db : DB) (uid : Nat)
    (hcat : transCatLive db) (hcatN : catIdsNodup db) (hsubN : subIdsNodup db) :
    export_rows_unordered db uid
      = (db.transactions.filter (fun t => decide (t.user_id = uid))).map
          (row_of db) := by
  unfold export_rows_unordered
  apply flatMap_eq_map_of_singleton
  intro t ht
  exact export_inner_singleton db t hcatN hsubN (hcat t (List.mem_filter.mp ht).1)

/-! ## Claim C7

`projectLedger` is the export query's row set.  The query orders by
`t.date DESC` only: the date order and the row multiset are guaranteed,
and an absent subcategory yields an absent name, but the claimed
primary-key tie-break does not exist in the query, so the row order among
equal dates — and with it determinism — is not guaranteed. -/

/-- A store with two same-date transactions of user 1 (primary keys 1, 2). -/
def dbC7 : DB :=
  ⟨[⟨1, "u", "h", "t0"⟩], [⟨1, "A", "expense", none, none⟩], [], [],
   [⟨1, 10, "2025-01-01", none, none, 1, 1, none, none⟩,
    ⟨2, 20, "2025-01-01", none, none, 1, 1, none, none⟩], 2, 2, 1, 1, 3⟩

/-- The export rows of `dbC7` in reverse primary-key order. -/
def rowsC7 : List ExportRow :=
  [⟨"2025-01-01", "A", none, 20, none, none, "expense"⟩,
   ⟨"2025-01-01", "A", none, 10, none, none, "expense"⟩]

/-- C7, counterexample to the claim as stated: `rowsC7` is a row sequence
the query may produce (right multiset, sorted by date descending), yet it
breaks the equal-date tie by primary key descending, differing from the
claimed deterministic pk-ascending output — so the code does not guarantee
the claimed order. -/
theorem C7_counterexample :
    export_transactions_valid dbC7 1 rowsC7 ∧
    rowsC7 ≠ spec_ledger_rows dbC7 1 := by
  refine ⟨⟨?_, ?_⟩, ?_⟩
  · decide
  · decide
  · decide

/-- C7, amended: any row sequence the export query can produce is exactly
the join of the user's transactions with their category names and optional
subcategory names (one row per transaction), ordered by date descending;
the relative order of rows with equal dates is unspecified (the query has
no secondary sort key); and a transaction without a subcategory yields a
row whose subcategory name is absent, not an error. -/
theorem C7_export_rows (db : DB) (uid : Nat) (rows : List ExportRow)
    (hcat : transCatLive db) (hcatN : catIdsNodup db) (hsubN : subIdsNodup db)
    (hv : export_transactions_valid db uid rows) :
    rows.Perm ((db.transactions.filter (fun t => decide (t.user_id = uid))).map
      (row_of db)) ∧
    rows.Pairwise dateDesc ∧
    (∀ t ∈ db.transactions, t.user_id = uid → t.subcategory_id = none →
      row_of db t ∈ rows ∧ (row_of db t).subcategory = none) := by
  have he := export_rows_eq_map db uid hcat hcatN hsubN
  refine ⟨he ▸ hv.1, hv.2, ?_⟩
  intro t ht hu hsub
  constructor
  · apply (hv.1.mem_iff).mpr
    rw [he]
    exact List.mem_map_of_mem _ (List.mem_filter.mpr ⟨ht, by simp [hu]⟩)
  · simp [row_of, hsub]

/-- C7 witness: the amended theorem applied to `dbC7` and the valid row
sequence `rowsC7`. -/
theorem C7_witness :
    (transCatLive dbC7 ∧ catIdsNodup dbC7 ∧ subIdsNodup dbC7 ∧
      export_transactions_valid dbC7 1 rowsC7) ∧
    (rowsC7.Perm ((dbC7.transactions.filter
        (fun t => decide (t.user_id = 1))).map (row_of dbC7)) ∧
      rowsC7.Pairwise dateDesc ∧
      (∀ t ∈ dbC7.transactions, t.user_id = 1 → t.subcategory_id = none →
        row_of dbC7 t ∈ rowsC7 ∧ (row_of dbC7 t).subcategory = none)) :=
  ⟨⟨by decide, by decide, by decide, by decide, by decide⟩,
   C7_export_rows dbC7 1 rowsC7 (by decide) (by decide) (by decide)
     ⟨by decide, by decide⟩⟩

/-! ## Claim C4

`listVisible(U, T)` is exactly the system defaults of type T plus U's own
categories of type T, ordered by name ascending, and never contains a
category owned by another user. -/

/-- C4: the non-faulting `get_categories` result contains the projection of
a category row iff it is of the requested type and is a system default or
owned by the requesting user; it is sorted by name ascending; and (given
distinct primary keys) no returned id belongs to a category owned by a
different user. -/
theorem C4_visible_categories (db : DB) (uid : Nat) (t : String)
    (hids : catIdsNodup db) :
    (∀ c ∈ db.categories,
        c.type = t ∧ (c.user_id = some uid ∨ c.user_id = none) →
        catView c ∈ get_categories false db uid t) ∧
    (∀ v ∈ get_categories false db uid t,
        ∃ c ∈ db.categories, catView c = v ∧ c.type = t ∧
          (c.user_id = some uid ∨ c.user_id = none)) ∧
    List.Sorted nameLe (get_categories false db uid t) ∧
    (∀ u2, u2 ≠ uid → ∀ v ∈ get_categories false db uid t,
        ∀ c ∈ db.categories, c.id = v.id → c.user_id ≠ some u2) := by
  have hrepr : get_categories false db uid t
      = List.insertionSort nameLe
          ((db.categories.filter
              (fun c => decide (c.type = t ∧
                (c.user_id = some uid ∨ c.user_id = none)))).map catView) := rfl
  have hmem : ∀ v, v ∈ get_categories false db uid t ↔
      ∃ c ∈ db.categories, (c.type = t ∧
        (c.user_id = some uid ∨ c.user_id = none)) ∧ catView c = v := by
    intro v
    rw [hrepr, List.mem_insertionSort, List.mem_map]
    constructor
    · rintro ⟨c, hc, rfl⟩
      rw [List.mem_filter] at hc
      exact ⟨c, hc.1, of_decide_eq_true hc.2, rfl⟩
    · rintro ⟨c, hc, hp, rfl⟩
      exact ⟨c, List.mem_filter.mpr ⟨hc, decide_eq_true hp⟩, rfl⟩
  refine ⟨?_, ?_, ?_, ?_⟩
  · intro c hc hp
    exact (hmem (catView c)).mpr ⟨c, hc, hp, rfl⟩
  · intro v hv
    obtain ⟨c, hc, hp, he⟩ := (hmem v).mp hv
    exact ⟨c, hc, he, hp⟩
  · rw [hrepr]
    exact List.sorted_insertionSort nameLe _
  · intro u2 hne v hv c hc hcid hcu
    obtain ⟨c', hc', hp', he'⟩ := (hmem v).mp hv
    have hid : c.id = c'.id := by
      rw [hcid, ← he']
      rfl
    have : c = c' := List.inj_on_of_nodup_map hids hc hc' hid
    rcases hp'.2 with h | h
    · rw [this, h] at hcu
      exact hne (Option.some.injEq _ _ ▸ hcu.symm ▸ rfl)
    · rw [this, h] at hcu
      exact Option.noConfusion hcu

/-- A store holding defaults and two users' private categories. -/
def dbC4 : DB :=
  ⟨[⟨1, "u1", "h", "t0"⟩, ⟨2, "u2", "h", "t0"⟩],
   [⟨1, "B", "expense", none, none⟩, ⟨2, "A", "expense", none, some 1⟩,
    ⟨3, "C", "expense", none, some 2⟩, ⟨4, "X", "income", none, none⟩],
   [], [], [], 3, 5, 1, 1, 1⟩

/-- C4 witness: the theorem applied to `dbC4` for user 1, whose visible
expense list is `A` (own) then `B` (default), sorted, and excludes user
2's category `C`. -/
theorem C4_witness :
    catIdsNodup dbC4 ∧
    get_categories false dbC4 1 "expense"
      = [⟨2, "A", none⟩, ⟨1, "B", none⟩] ∧
    List.Sorted nameLe (get_categories false dbC4 1 "expense") ∧
    (∀ v ∈ get_categories false dbC4 1 "expense",
        ∀ c ∈ dbC4.categories, c.id = v.id → c.user_id ≠ some 2) :=
  ⟨by decide, by decide,
   (C4_visible_categories dbC4 1 "expense" (by decide)).2.2.1,
   fun v hv c hc hid =>
     (C4_visible_categories dbC4 1 "expense" (by decide)).2.2.2 2
       (by decide) v hv c hc hid⟩

/-! ## Claim C8

Cascade rules of the schema: deleting a user removes everything the user
owns; deleting a recurring rule nullifies, not deletes, the transactions
that originated from it. -/

/-- C8: (a) when `DELETE FROM users` succeeds, no category, subcategory,
recurring rule or transaction owned by the deleted user survives (and the
user row is gone); (b) `DELETE FROM recurring_transactions` always keeps
every transaction, removing the rule and setting `recurring_id` to NULL
exactly on the transactions that referenced it. -/
theorem C8_cascade_rules :
    (∀ (db : DB) (uid : Nat) (db' : DB), delete_user db uid = some db' →
      (∀ u ∈ db'.users, u.id ≠ uid) ∧
      (∀ c ∈ db'.categories, c.user_id ≠ some uid) ∧
      (∀ s ∈ db'.subcategories, s.user_id ≠ some uid) ∧
      (∀ r ∈ db'.recurring_transactions, r.user_id ≠ uid) ∧
      (∀ t ∈ db'.transactions, t.user_id ≠ uid)) ∧
    (∀ (db : DB) (rid : Nat),
      (∀ r ∈ (delete_recurring db rid).recurring_transactions, r.id ≠ rid) ∧
      (delete_recurring db rid).transactions.length = db.transactions.length ∧
      (∀ t ∈ db.transactions, t.recurring_id = some rid →
        ({ t with recurring_id := none } : TransactionRow)
          ∈ (delete_recurring db rid).transactions) ∧
      (∀ t ∈ db.transactions, t.recurring_id ≠ some rid →
        t ∈ (delete_recurring db rid).transactions)) := by
  constructor
  · intro db uid db' h
    unfold delete_user at h
    dsimp only at h
    split at h
    · exact Option.noConfusion h
    · rw [Option.some.injEq] at h
      subst h
      refine ⟨?_, ?_, ?_, ?_, ?_⟩
      · intro u hu
        exact of_decide_eq_true (List.mem_filter.mp hu).2
      · intro c hc
        exact of_decide_eq_true (List.mem_filter.mp hc).2
      · intro s hs
        exact fun he => of_decide_eq_true (List.mem_filter.mp hs).2 (Or.inl he)
      · intro r hr
        exact of_decide_eq_true (List.mem_filter.mp hr).2
      · intro t' ht'
        obtain ⟨t0, ht0, rfl⟩ := List.mem_map.mp ht'
        have h0 : t0.user_id ≠ uid := of_decide_eq_true (List.mem_filter.mp ht0).2
        split
        · exact h0
        · exact h0
  · intro db rid
    have hdr : (delete_recurring db rid).transactions
        = db.transactions.map (fun t =>
            if t.recurring_id = some rid then { t with recurring_id := none }
            else t) := rfl
    refine ⟨?_, ?_, ?_, ?_⟩
    · intro r hr
      exact of_decide_eq_true (List.mem_filter.mp hr).2
    · rw [hdr, List.length_map]
    · intro t ht hrec
      have hm := List.mem_map_of_mem (fun t : TransactionRow =>
        if t.recurring_id = some rid then { t with recurring_id := none }
        else t) ht
      dsimp only at hm
      rw [if_pos hrec] at hm
      rw [hdr]
      exact hm
    · intro t ht hrec
      have hm := List.mem_map_of_mem (fun t : TransactionRow =>
        if t.recurring_id = some rid then { t with recurring_id := none }
        else t) ht
      dsimp only at hm
      rw [if_neg hrec] at hm
      rw [hdr]
      exact hm

/-- A store where user 1 owns a category, a subcategory, a recurring rule
and a transaction, and user 2's transaction references user 1's recurring
rule. -/
def dbC8 : DB :=
  ⟨[⟨1, "a", "h", "t0"⟩, ⟨2, "b", "h", "t0"⟩],
   [⟨1, "C1", "expense", none, some 1⟩, ⟨2, "C2", "expense", none, some 2⟩],
   [⟨1, "S1", 1, some 1⟩],
   [⟨1, "R1", 5, "monthly", "2025-01-01", 1, 1⟩,
    ⟨2, "R2", 5, "monthly", "2025-01-01", 2, 2⟩],
   [⟨1, 10, "2025-01-01", none, none, 1, 1, some 1, some 1⟩,
    ⟨2, 15, "2025-01-02", none, none, 2, 2, none, some 1⟩],
   3, 3, 2, 3, 3⟩

/-- The result of deleting user 1 from `dbC8`: everything user 1 owned is
gone, and user 2's transaction survives with `recurring_id` nullified. -/
def dbC8res : DB :=
  ⟨[⟨2, "b", "h", "t0"⟩], [⟨2, "C2", "expense", none, some 2⟩], [],
   [⟨2, "R2", 5, "monthly", "2025-01-01", 2, 2⟩],
   [⟨2, 15, "2025-01-02", none, none, 2, 2, none, none⟩], 3, 3, 2, 3, 3⟩

/-- C8 witness: the theorem applied to `dbC8`, where deleting user 1
succeeds and produces `dbC8res`. -/
theorem C8_witness :
    delete_user dbC8 1 = some dbC8res ∧
    ((∀ c ∈ dbC8res.categories, c.user_id ≠ some 1) ∧
      (∀ t ∈ dbC8res.transactions, t.user_id ≠ 1)) ∧
    (∀ t ∈ dbC8.transactions, t.recurring_id = some 1 →
      ({ t with recurring_id := none } : TransactionRow)
        ∈ (delete_recurring dbC8 1).transactions) :=
  ⟨by decide,
   ⟨(C8_cascade_rules.1 dbC8 1 dbC8res (by decide)).2.1,
    (C8_cascade_rules.1 dbC8 1 dbC8res (by decide)).2.2.2.2⟩,
   (C8_cascade_rules.2 dbC8 1).2.2.1⟩

/-! ## Claim C9

A category referenced by a transaction cannot be deleted: the
`transactions.category_id` foreign key has no delete action, so the
statement is rejected and the store unchanged; consequently transactions
always reference a live category and the inner join of the export loses no
row. -/

/-- `DELETE FROM categories` succeeding means no transaction referenced the
category; the transactions table is untouched and only the category (and
its subcategories) are removed. -/
lemma delete_category_some (db : DB) (cid : Nat) (db' : DB)
    (h : delete_category db cid = some db') :
    (∀ t ∈ db.transactions, t.category_id ≠ cid) ∧
    db'.transactions = db.transactions ∧
    db'.categories = db.categories.filter (fun c => decide (c.id ≠ cid)) := by
  unfold delete_category at h
  dsimp only at h
  split at h
  · exact Option.noConfusion h
  · next hv =>
      rw [Option.some.injEq] at h
      subst h
      refine ⟨?_, rfl, rfl⟩
      intro t ht hcid
      apply hv
      simp only [Bool.or_eq_true, List.any_eq_true]
      exact Or.inr ⟨t, ht, by simp [hcid]⟩

/-- C9: (a) if some transaction references category `cid`, the delete is
rejected (returns `none`, store unchanged); (b) a successful category
delete preserves the invariant that every transaction references a live
category; (c) under that invariant (and primary-key uniqueness) the export
query's inner join drops no transaction — each of the user's transactions
produces exactly one row with its category name. -/
theorem C9_category_restrict :
    (∀ (db : DB) (cid : Nat), (∃ t ∈ db.transactions, t.category_id = cid) →
      delete_category db cid = none) ∧
    (∀ (db : DB) (cid : Nat) (db' : DB), delete_category db cid = some db' →
      transCatLive db → transCatLive db') ∧
    (∀ (db : DB) (uid : Nat), transCatLive db → catIdsNodup db →
      subIdsNodup db →
      (export_rows_unordered db uid).length
        = (db.transactions.filter (fun t => decide (t.user_id = uid))).length) := by
  refine ⟨?_, ?_, ?_⟩
  · rintro db cid ⟨t, ht, hcid⟩
    cases hres : delete_category db cid with
    | none => rfl
    | some db' =>
      exact absurd hcid ((delete_category_some db cid db' hres).1 t ht)
  · intro db cid db' h hcat t ht
    obtain ⟨hnone, htr, hcats⟩ := delete_category_some db cid db' h
    rw [htr] at ht
    obtain ⟨c, hc, hcid⟩ := hcat t ht
    refine ⟨c, ?_, hcid⟩
    rw [hcats]
    refine List.mem_filter.mpr ⟨hc, decide_eq_true ?_⟩
    rw [hcid]
    exact hnone t ht
  · intro db uid h1 h2 h3
    rw [export_rows_eq_map db uid h1 h2 h3, List.length_map]

/-- C9 witness: the theorem applied to `dbC7`, whose category 1 is
referenced by two transactions, so its deletion is rejected; and the
export of `dbC7` has exactly one row per transaction. -/
theorem C9_witness :
    (∃ t ∈ dbC7.transactions, t.category_id = 1) ∧
    delete_category dbC7 1 = none ∧
    (export_rows_unordered dbC7 1).length
      = (dbC7.transactions.filter (fun t => decide (t.user_id = 1))).length :=
  ⟨by decide, C9_category_restrict.1 dbC7 1 (by decide),
   C9_category_restrict.2.2 dbC7 1 (by decide) (by decide) (by decide)⟩

/-! ## Claim C10

The stored password hash is a deterministic, unsalted function of the
password alone: two accounts created with the same password store the
identical `password_hash`, namely `hash_password p`. -/

/-- C10: when `createUser(u1, p)` then `createUser(u2, p)` both succeed,
the two stored rows carry the same `password_hash`, `hash_password p`,
which depends on the password alone (no salt, no per-user input). -/
theorem C10_hash_deterministic (db : DB) (now1 now2 u1 u2 p : String)
    (i1 i2 : Nat)
    (h1 : (add_user db now1 u1 p).1 = some i1)
    (h2 : (add_user (add_user db now1 u1 p).2 now2 u2 p).1 = some i2) :
    (⟨i1, u1, hash_password p, now1⟩ : UserRow)
      ∈ (add_user (add_user db now1 u1 p).2 now2 u2 p).2.users ∧
    (⟨i2, u2, hash_password p, now2⟩ : UserRow)
      ∈ (add_user (add_user db now1 u1 p).2 now2 u2 p).2.users := by
  rcases add_user_spec db now1 u1 p with ⟨_, he1⟩ | ⟨_, he1⟩
  · rw [he1] at h1
    exact absurd h1 (by simp)
  · rw [he1] at h1 h2 ⊢
    simp only [Option.some.injEq] at h1
    rcases add_user_spec
        { db with
          users := db.users ++ [⟨db.next_user_id, u1, hash_password p, now1⟩],
          next_user_id := db.next_user_id + 1 } now2 u2 p with ⟨_, he2⟩ | ⟨_, he2⟩
    · rw [he2] at h2
      exact absurd h2 (by simp)
    · rw [he2] at h2 ⊢
      simp only [Option.some.injEq] at h2
      subst h1
      subst h2
      constructor
      · exact List.mem_append.mpr (Or.inl (List.mem_append.mpr (Or.inr
          (List.mem_cons_self _ _))))
      · exact List.mem_append.mpr (Or.inr (List.mem_cons_self _ _))

/-- C10 witness: two accounts created with password "pw" on a fresh store
both store the hash of "pw". -/
theorem C10_witness :
    (add_user create_tables "t1" "alice" "pw").1 = some 1 ∧
    (add_user (add_user create_tables "t1" "alice" "pw").2 "t2" "bob" "pw").1
      = some 2 ∧
    ((⟨1, "alice", hash_password "pw", "t1"⟩ : UserRow)
        ∈ (add_user (add_user create_tables "t1" "alice" "pw").2 "t2" "bob" "pw").2.users ∧
      (⟨2, "bob", hash_password "pw", "t2"⟩ : UserRow)
        ∈ (add_user (add_user create_tables "t1" "alice" "pw").2 "t2" "bob" "pw").2.users) :=
  ⟨by decide, by decide,
   C10_hash_deterministic create_tables "t1" "t2" "alice" "bob" "pw" 1 2
     (by decide) (by decide)⟩

/-! ## Claim C5

Duplicate usernames and credential verification.  In the model the only
failing branch of `add_user` is the `sqlite3.IntegrityError` raised by the
`username UNIQUE` constraint (the `DuplicateUsername` case of the spec's
taxonomy); it returns no identifier and leaves the store, hence the stored
credential, unchanged.  `verify_user` compares stored and recomputed
hashes, so the statement needs the two passwords to have distinct hashes —
distinct passwords with a (never exhibited) SHA-256 collision would still
verify. -/

/-- C5: after `createUser(u, p1)` succeeds on a store with no user named
`u`, a second `createUser(u, p2)` fails via the uniqueness violation with
no identifier and an unchanged store, `verify(u, p1)` returns the full
stored record, and `verify(u, p2)` fails. -/
theorem C5_duplicate_username (db : DB) (now1 now2 u p1 p2 : String)
    (hfresh : ∀ x ∈ db.users, x.username ≠ u)
    (hhash : hash_password p1 ≠ hash_password p2) :
    (add_user (add_user db now1 u p1).2 now2 u p2).1 = none ∧
    (add_user (add_user db now1 u p1).2 now2 u p2).2 = (add_user db now1 u p1).2 ∧
    verify_user (add_user db now1 u p1).2 u p1
      = some ⟨db.next_user_id, u, hash_password p1, now1⟩ ∧
    verify_user (add_user db now1 u p1).2 u p2 = none := by
  rcases add_user_spec db now1 u p1 with ⟨hb, _⟩ | ⟨_, he1⟩
  · rw [List.any_eq_true] at hb
    obtain ⟨x, hx, hxu⟩ := hb
    exact absurd (of_decide_eq_true hxu) (hfresh x hx)
  · rw [he1]
    rcases add_user_spec
        { db with
          users := db.users ++ [⟨db.next_user_id, u, hash_password p1, now1⟩],
          next_user_id := db.next_user_id + 1 } now2 u p2 with ⟨_, he2⟩ | ⟨hb2, _⟩
    · rw [he2]
      refine ⟨rfl, rfl, ?_, ?_⟩
      · show (db.users ++ [(⟨db.next_user_id, u, hash_password p1, now1⟩ : UserRow)]).find?
            (fun x => decide (x.username = u ∧
              x.password_hash = hash_password p1))
            = some ⟨db.next_user_id, u, hash_password p1, now1⟩
        rw [find?_append_left_nil _ _ (fun x hx => by simp [hfresh x hx])]
        rw [List.find?_cons_of_pos _ (by simp)]
      · show (db.users ++ [(⟨db.next_user_id, u, hash_password p1, now1⟩ : UserRow)]).find?
            (fun x => decide (x.username = u ∧
              x.password_hash = hash_password p2))
            = none
        rw [find?_append_left_nil _ _ (fun x hx => by simp [hfresh x hx])]
        rw [List.find?_cons_of_neg _ (by simp [hhash])]
        rfl
    · rw [List.any_eq_false] at hb2
      exact absurd (hb2 ⟨db.next_user_id, u, hash_password p1, now1⟩
        (List.mem_append.mpr (Or.inr (List.mem_cons_self _ _)))) (by simp)

/-- C5 witness: the spec's own scenario — "alice"/"pw1" then
"alice"/"pw2" on a fresh store — with both hypotheses checked by
computation (the two SHA-256 digests differ). -/
theorem C5_witness :
    ((∀ x ∈ create_tables.users, x.username ≠ "alice") ∧
      hash_password "pw1" ≠ hash_password "pw2") ∧
    ((add_user (add_user create_tables "t1" "alice" "pw1").2 "t2" "alice" "pw2").1
        = none ∧
      (add_user (add_user create_tables "t1" "alice" "pw1").2 "t2" "alice" "pw2").2
        = (add_user create_tables "t1" "alice" "pw1").2 ∧
      verify_user (add_user create_tables "t1" "alice" "pw1").2 "alice" "pw1"
        = some ⟨create_tables.next_user_id, "alice", hash_password "pw1", "t1"⟩ ∧
      verify_user (add_user create_tables "t1" "alice" "pw1").2 "alice" "pw2"
        = none) :=
  ⟨⟨by decide, by decide⟩,
   C5_duplicate_username create_tables "t1" "t2" "alice" "pw1" "pw2"
     (by decide) (by decide)⟩

/-! ## Claim C6

An empty `get_categories` result is not an error — but the
`sqlite3.Error` handler in the same function also returns `[]`, so the
empty result is NOT distinguishable from a storage failure at the
interface. -/

/-- A store whose only category matches no "expense" query. -/
def dbC6 : DB := ⟨[⟨1, "u", "h", "t0"⟩], [⟨1, "Salary", "income", none, none⟩],
  [], [], [], 2, 2, 1, 1, 1⟩

/-- C6, counterexample to the claim as stated: on a store where the query
finds nothing, the storage-failure outcome and the successful empty
outcome are the same value `[]` — the caller cannot distinguish them. -/
theorem C6_counterexample :
    get_categories true dbC6 1 "expense" = get_categories false dbC6 1 "expense" ∧
    get_categories false dbC6 1 "expense" = [] := by
  decide

/-- C6, amended: a `get_categories` call that finds no rows returns the
empty list and is not an error, but a storage failure of the same call
also returns the empty list, so the two outcomes are not distinguishable
at the interface. -/
theorem C6_empty_vs_fault (db : DB) (uid : Nat) (t : String) :
    ((∀ c ∈ db.categories,
        ¬(c.type = t ∧ (c.user_id = some uid ∨ c.user_id = none))) →
      get_categories false db uid t = []) ∧
    get_categories true db uid t = [] := by
  constructor
  · intro h
    have hf : db.categories.filter
        (fun c => decide (c.type = t ∧ (c.user_id = some uid ∨ c.user_id = none)))
        = [] := by
      rw [List.filter_eq_nil_iff]
      intro c hc
      simp only [decide_eq_true_eq]
      exact h c hc
    show List.insertionSort nameLe
        ((db.categories.filter
            (fun c => decide (c.type = t ∧
              (c.user_id = some uid ∨ c.user_id = none)))).map catView)
        = []
    rw [hf]
    rfl
  · rfl

/-- C6 witness: the amended theorem applied to `dbC6`, whose only category
is of type income. -/
theorem C6_witness :
    (∀ c ∈ dbC6.categories,
      ¬(c.type = "expense" ∧ (c.user_id = some 1 ∨ c.user_id = none))) ∧
    get_categories false dbC6 1 "expense" = [] ∧
    get_categories true dbC6 1 "expense" = [] :=
  ⟨by decide, (C6_empty_vs_fault dbC6 1 "expense").1 (by decide),
   (C6_empty_vs_fault dbC6 1 "expense").2⟩

end BudgetApp
